import Mathlib

/-
Verification of the hurl parsing core (packages/hurl_core/src/parser/string.rs,
packages/hurl_core/src/parser/predicate.rs) and the TAP report writer
(packages/hurl/src/report/tap/report.rs).

The parser state, error model and the grammar rules are embedded shallowly:
a parser is a function `Reader → Except Error α × Reader`, returning both the
outcome and the final reader (errors do not by themselves roll the reader
back, exactly as in the source, where rules mutate a `&mut Reader`).
Machine integers are embedded as `Nat` with explicit reduction modulo 2^32
where the source uses `u32` arithmetic.
-/

namespace Hurl

/-- 1-based line/column position (`ast::Pos`). -/
structure Pos where
  line : Nat
  column : Nat
deriving DecidableEq, Repr

/-- Advance a position over one character: newline starts a new line. -/
def Pos.advance (p : Pos) (c : Char) : Pos :=
  if c = '\n' then ⟨p.line + 1, 1⟩ else ⟨p.line, p.column + 1⟩

/-- Reader snapshot: character offset plus position (`reader::ReaderState`). -/
structure ReaderState where
  cursor : Nat
  pos : Pos
deriving DecidableEq, Repr

/-- Advance a state over a list of characters. -/
def ReaderState.advanceChars (st : ReaderState) (cs : List Char) : ReaderState :=
  ⟨st.cursor + cs.length, cs.foldl Pos.advance st.pos⟩

/-- Position-tracking input cursor (`reader::Reader`); the buffer is never
mutated, only the state moves. -/
structure Reader where
  buffer : List Char
  state : ReaderState
deriving DecidableEq, Repr

/-- A fresh reader over an input string, at line 1 column 1. -/
def Reader.new (s : String) : Reader :=
  ⟨s.data, ⟨0, ⟨1, 1⟩⟩⟩

/-- The input not yet consumed. -/
def Reader.remaining (r : Reader) : List Char :=
  r.buffer.drop r.state.cursor

/-- `Reader::read`: consume one character, updating the position. -/
def Reader.read (r : Reader) : Option Char × Reader :=
  match r.remaining with
  | [] => (none, r)
  | c :: _ => (some c, ⟨r.buffer, ⟨r.state.cursor + 1, r.state.pos.advance c⟩⟩)

/-- `Reader::peek_back`: the raw text from a past offset to the current one. -/
def Reader.peek_back (r : Reader) (offset : Nat) : String :=
  String.mk ((r.buffer.drop offset).take (r.state.cursor - offset))

/-- Error kinds surfaced by the parsing core (`error::ParseError`, restricted
to the kinds the embedded rules produce). -/
inductive ParseError where
  | Expecting (value : String)
  | EscapeChar
  | Unicode
  | HexDigit
  | Predicate
  | PredicateValue
deriving DecidableEq, Repr

/-- A diagnostic: position, recoverability flag and kind (`error::Error`). -/
structure Error where
  pos : Pos
  recoverable : Bool
  inner : ParseError
deriving DecidableEq, Repr

/-- A grammar rule: consumes from the reader, returns a value or an `Error`,
together with the reader it leaves behind. -/
abbrev ParserFn (α : Type) := Reader → Except Error α × Reader

/-- A span from start to end position (`ast::SourceInfo`); the source's `end`
field is called `stop` because `end` is reserved in Lean. -/
structure SourceInfo where
  start : Pos
  stop : Pos
deriving DecidableEq, Repr

/-- A preserved run of space characters (`ast::Whitespace`). -/
structure Whitespace where
  value : String
  source_info : SourceInfo
deriving DecidableEq, Repr

/-- Modelled from the spec: speculative literal matching (§2, §4.2) from the
combinator library, whose source file is outside the provided sources. On a
mismatch the rule fails recoverably at its entry position with the reader
untouched; on a match it consumes the literal. -/
def try_literal (s : String) (r : Reader) : Except Error Unit × Reader :=
  if s.data.isPrefixOf r.remaining then
    (.ok (), ⟨r.buffer, r.state.advanceChars s.data⟩)
  else
    (.error ⟨r.state.pos, true, .Expecting s⟩, r)

/-- Modelled from the spec: strict literal matching (§2) from the combinator
library, whose source file is outside the provided sources. A mismatch is a
fatal `Expecting` error at the literal's start. -/
def literal (s : String) (r : Reader) : Except Error Unit × Reader :=
  if s.data.isPrefixOf r.remaining then
    (.ok (), ⟨r.buffer, r.state.advanceChars s.data⟩)
  else
    (.error ⟨r.state.pos, false, .Expecting s⟩, r)

/-- Modelled from the spec: speculative matching of either of two literal
spellings (§4.4, deprecated word form vs. symbolic form); the combinator
library's source file is outside the provided sources. Returns the spelling
that matched; fails recoverably with the reader untouched if neither does. -/
def try_literals (s1 s2 : String) (r : Reader) : Except Error String × Reader :=
  match try_literal s1 r with
  | (.ok _, r1) => (.ok s1, r1)
  | (.error _, _) =>
    match try_literal s2 r with
    | (.ok _, r2) => (.ok s2, r2)
    | (.error _, _) =>
      (.error ⟨r.state.pos, true, .Expecting (s1 ++ " or " ++ s2)⟩, r)

/-- A space character for whitespace runs (space or tab). -/
def isSpaceChar (c : Char) : Bool := c = ' ' || c = '\t'

/-- Modelled from the spec: whitespace counting (§2); the primitives' source
file is outside the provided sources. Consumes one or more spaces, preserving
the run verbatim (§3, Whitespace); fails recoverably on an empty run. -/
def one_or_more_spaces (r : Reader) : Except Error Whitespace × Reader :=
  let cs := r.remaining.takeWhile isSpaceChar
  if cs.isEmpty then
    (.error ⟨r.state.pos, true, .Expecting "space"⟩, r)
  else
    let st := r.state.advanceChars cs
    (.ok ⟨String.mk cs, ⟨r.state.pos, st.pos⟩⟩, ⟨r.buffer, st⟩)

/-- Modelled from the spec: whitespace counting (§2); consumes zero or more
spaces and never fails. -/
def zero_or_more_spaces (r : Reader) : Except Error Whitespace × Reader :=
  let cs := r.remaining.takeWhile isSpaceChar
  let st := r.state.advanceChars cs
  (.ok ⟨String.mk cs, ⟨r.state.pos, st.pos⟩⟩, ⟨r.buffer, st⟩)

/-- Modelled from the spec: ordered choice (§4.2); the combinator library's
source file is outside the provided sources. Each non-final alternative is
tried from a fresh snapshot and the snapshot is restored on its recoverable
failure; a success or a fatal failure is returned immediately; the final
alternative's outcome is returned as-is. -/
def choice {α : Type} : List (ParserFn α) → Reader → Except Error α × Reader
  | [], r => (.error ⟨r.state.pos, true, .Expecting "choice"⟩, r)
  | [f], r => f r
  | f :: rest, r =>
    match f r with
    | (.ok v, r1) => (.ok v, r1)
    | (.error e, r1) =>
      if e.recoverable then choice rest r else (.error e, r1)

/-- Loop of `one_or_more` after a successful first element; `fuel` bounds the
iteration count (each iteration of the source loop consumes at least one
character, §5). -/
def one_or_more_go {α : Type} (f : ParserFn α) :
    Nat → List α → Reader → Except Error (List α) × Reader
  | 0, acc, r => (.ok acc, r)
  | fuel + 1, acc, r =>
    let save := r.state
    match f r with
    | (.ok v, r1) => one_or_more_go f fuel (acc ++ [v]) r1
    | (.error e, r1) =>
      if e.recoverable then (.ok acc, ⟨r1.buffer, save⟩) else (.error e, r1)

/-- Modelled from the spec: the one-or-more repetition combinator (§2, §5);
the combinator library's source file is outside the provided sources. A
recoverable failure of the first element is promoted to a fatal error of the
same kind (matching the fatal `HexDigit` failure asserted by the source's
`hex_value` test); later recoverable failures end the repetition with the
pre-iteration snapshot restored. -/
def one_or_more {α : Type} (f : ParserFn α) (fuel : Nat) (r : Reader) :
    Except Error (List α) × Reader :=
  match f r with
  | (.ok v, r1) => one_or_more_go f fuel [v] r1
  | (.error e, r1) =>
    if e.recoverable then
      (.error ⟨e.pos, false, e.inner⟩, r1)
    else
      (.error e, r1)

/-- Whether `p` is a prefix of `s` (the semantics of Rust's
`str::starts_with`), computed on the character lists. -/
def strStartsWith (s p : String) : Bool :=
  p.data.isPrefixOf s.data

/-- The numeric value of a decimal digit list, most significant first. -/
def digitsToNat (cs : List Char) : Nat :=
  cs.foldl (fun a c => 10 * a + (c.toNat - 48)) 0

/-- Loop of `splitOnList`, accumulating the current group; `fuel` bounds the
iteration count (each step consumes at least one character). -/
def splitOnGo (sep : List Char) : Nat → List Char → List Char → List (List Char)
  | _, [], acc => [acc]
  | 0, l, acc => [acc ++ l]
  | fuel + 1, c :: rest, acc =>
    if sep ≠ [] ∧ sep.isPrefixOf (c :: rest) then
      acc :: splitOnGo sep fuel (rest.drop (sep.length - 1)) []
    else
      splitOnGo sep fuel rest (acc ++ [c])

/-- Split a character list on every occurrence of a separator (the semantics
of Rust's `str::split`). -/
def splitOnList (sep : List Char) (l : List Char) : List (List Char) :=
  splitOnGo sep (l.length + 1) l []

/-- A character stripped by trimming (the ASCII whitespace the evaluated
inputs contain). -/
def isTrimChar (c : Char) : Bool :=
  c = ' ' || c = '\t' || c = '\n' || c = '\r'

/-- Trim whitespace from both ends of a string (the semantics of Rust's
`str::trim` on the evaluated inputs). -/
def trimStr (s : String) : String :=
  String.mk (((s.data.dropWhile isTrimChar).reverse.dropWhile isTrimChar).reverse)

/-- Parse a string of decimal digits (the successful cases of Rust's
`str::parse::<usize>` on the evaluated inputs). -/
def strToNat? (s : String) : Option Nat :=
  if s.data ≠ [] ∧ s.data.all Char.isDigit then some (digitsToNat s.data)
  else none

/-- The numeric value of a hexadecimal digit character, as `char::to_digit(16)`
computes it. -/
def hexDigitVal (c : Char) : Option Nat :=
  let n := c.toNat
  if 48 ≤ n ∧ n ≤ 57 then some (n - 48)
  else if 97 ≤ n ∧ n ≤ 102 then some (n - 87)
  else if 65 ≤ n ∧ n ≤ 70 then some (n - 55)
  else none

/-- Modelled from the spec: the hex-digit primitive used by the Unicode escape
decoder (§4.3); the primitives' source file is outside the provided sources.
Reads one hex digit and returns its value; fails recoverably with kind
`HexDigit` otherwise, leaving the reader untouched. -/
def hex_digit (r : Reader) : Except Error Nat × Reader :=
  match r.read with
  | (some c, r1) =>
    match hexDigitVal c with
    | some v => (.ok v, r1)
    | none => (.error ⟨r.state.pos, true, .HexDigit⟩, r)
  | (none, _) => (.error ⟨r.state.pos, true, .HexDigit⟩, r)

/-- An interpolation variable (`ast::Variable`). -/
structure Variable where
  name : String
  source_info : SourceInfo
deriving DecidableEq, Repr

/-- An interpolated expression `\x7b\x7b name \x7d\x7d` (`ast::Expr`); the
source's `variable` field is called `var` because `variable` is reserved in
Lean. -/
structure Expr where
  space0 : Whitespace
  var : Variable
  space1 : Whitespace
deriving DecidableEq, Repr

/-- One element of a decoded template (`ast::TemplateElement`): a coalesced
literal run carrying decoded value and original encoded text, or an
interpolated expression. -/
inductive TemplateElement where
  | String (value : String) (encoded : String)
  | Expression (e : Expr)
deriving DecidableEq, Repr

/-- A decoded templated string (`ast::Template`). -/
structure Template where
  delimiter : Option Char
  elements : List TemplateElement
  source_info : SourceInfo
deriving DecidableEq, Repr

/-- A decoded key token before templating (`ast::EncodedString` as used by
`unquoted_string_key`). -/
structure EncodedString where
  value : String
  encoded : String
  quotes : Bool
  source_info : SourceInfo
deriving DecidableEq, Repr

/-- One raw decoded character: decoded char, original encoded fragment and
start position (the triples of `template::EncodedString`). -/
abbrev EncodedChar := Char × String × Pos

/-- Characters allowed in an interpolation variable name. -/
def isNameChar (c : Char) : Bool :=
  c.isAlphanum || c = '_' || c = '-'

/-- Take the leading run of raw (unescaped) spaces from an encoded character
stream. -/
def takeRawSpaces : List EncodedChar → List EncodedChar × List EncodedChar
  | (' ', s, p) :: rest =>
    if s.data = [' '] then
      let (sp, other) := takeRawSpaces rest
      ((' ', s, p) :: sp, other)
    else ([], (' ', s, p) :: rest)
  | l => ([], l)

/-- Take the leading run of variable-name characters from an encoded character
stream. -/
def takeNameChars : List EncodedChar → List EncodedChar × List EncodedChar
  | (c, s, p) :: rest =>
    if isNameChar c ∧ s.data = [c] then
      let (nm, other) := takeNameChars rest
      ((c, s, p) :: nm, other)
    else ([], (c, s, p) :: rest)
  | [] => ([], [])

/-- The position of the first entry of a stream, or a fallback at its end. -/
def streamPos (fallback : Pos) : List EncodedChar → Pos
  | (_, _, p) :: _ => p
  | [] => fallback

/-- Modelled from the spec: recognition of one interpolation marker body
`<spaces> <name> <spaces> \x7d\x7d` (§4.3, output construction); the template
decoder's source file is outside the provided sources. Returns the decoded
`Expr` and the stream after the closing braces. -/
def parseExprBody (fallback : Pos) (l : List EncodedChar) :
    Except Error (Expr × List EncodedChar) :=
  let (sp0, l1) := takeRawSpaces l
  let (nm, l2) := takeNameChars l1
  if nm.isEmpty then
    .error ⟨streamPos fallback l1, false, .Expecting "variable"⟩
  else
    let (sp1, l3) := takeRawSpaces l2
    match l3 with
    | (c1, s1, _) :: (c2, s2, _) :: l4 =>
      if c1 = '}' ∧ s1.data = ['}'] ∧ c2 = '}' ∧ s2.data = ['}'] then
        let p0 := streamPos fallback l
        let p1 := streamPos fallback l1
        let p2 := streamPos fallback l2
        let p3 := streamPos fallback l3
        .ok (⟨⟨String.mk (sp0.map fun t => t.1), ⟨p0, p1⟩⟩,
              ⟨String.mk (nm.map fun t => t.1), ⟨p1, p2⟩⟩,
              ⟨String.mk (sp1.map fun t => t.1), ⟨p2, p3⟩⟩⟩, l4)
      else .error ⟨streamPos fallback l3, false, .Expecting "closing braces"⟩
    | _ => .error ⟨streamPos fallback l3, false, .Expecting "closing braces"⟩

/-- Prepend a pending literal run (if nonempty) to a list of elements. -/
def flushLiteral (v e : String) (tail : List TemplateElement) :
    List TemplateElement :=
  if v.isEmpty ∧ e.isEmpty then tail else TemplateElement.String v e :: tail

/-- Loop of `templatize`; `fuel` bounds the iteration count (each step consumes
at least one stream entry). -/
def templatizeGo : Nat → List EncodedChar → String → String →
    Except Error (List TemplateElement)
  | 0, _, v, e => .ok (flushLiteral v e [])
  | fuel + 1, l, v, e =>
    match l with
    | [] => .ok (flushLiteral v e [])
    | (c, s, p) :: rest =>
      let asLiteral := templatizeGo fuel rest (v.push c) (e ++ s)
      if c = '{' ∧ s.data = ['{'] then
        match rest with
        | (c2, s2, _) :: rest2 =>
          if c2 = '{' ∧ s2.data = ['{'] then
            match parseExprBody p rest2 with
            | .error err => .error err
            | .ok (expr, rest3) =>
              match templatizeGo fuel rest3 "" "" with
              | .error err => .error err
              | .ok tail =>
                .ok (flushLiteral v e (TemplateElement.Expression expr :: tail))
          else asLiteral
        | [] => asLiteral
      else asLiteral

/-- Modelled from the spec: the template decoder's output construction (§4.3);
its source file (`template.rs`) is outside the provided sources. The decoder
walks the (decoded char, encoded fragment, position) stream, emitting an
`Expression` element for each unescaped interpolation marker and accumulating
consecutive non-marker characters into a single literal element carrying both
the decoded value and the original encoded text; an empty stream yields zero
elements. -/
def templatize (chars : List EncodedChar) : Except Error (List TemplateElement) :=
  templatizeGo (chars.length + 1) chars "" ""

/-- 2^32, the modulus of the source's `u32` accumulator in `hex_value`. -/
def U32M : Nat := 4294967296

/-- The accumulation loop of `string.rs::hex_value` over the reversed
(least-significant-first) digit list: `v += weight * d; weight *= 16` on
`u32`, every operation reduced modulo 2^32. -/
def hexAccum : List Nat → Nat → Nat → Nat
  | [], v, _ => v
  | d :: ds, v, w => hexAccum ds ((v + (w * d) % U32M) % U32M) ((w * 16) % U32M)

/-- `string.rs::hex_value`: one or more hex digits accumulated into a `u32`
most-significant-digit-first. -/
def hex_value (r : Reader) : Except Error Nat × Reader :=
  match one_or_more hex_digit (r.buffer.length + 1) r with
  | (.error e, r1) => (.error e, r1)
  | (.ok digits, r1) => (.ok (hexAccum digits.reverse 0 1), r1)

/-- Whether a code is a valid Unicode scalar value (what
`std::char::from_u32` accepts): not a surrogate and at most 0x10FFFF. -/
def isValidScalar (v : Nat) : Bool :=
  v < 55296 || (57344 ≤ v && v < 1114112)

/-- `string.rs::unicode`: after `\u`, a braced hex value; a code that is not a
valid Unicode scalar is a fatal `Unicode` error at the position after the
digits. -/
def unicode (r : Reader) : Except Error Char × Reader :=
  match literal "\x7b" r with
  | (.error e, r1) => (.error e, r1)
  | (.ok _, r1) =>
    match hex_value r1 with
    | (.error e, r2) => (.error e, r2)
    | (.ok v, r2) =>
      if isValidScalar v then
        match literal "\x7d" r2 with
        | (.error e, r3) => (.error e, r3)
        | (.ok _, r3) => (.ok (Char.ofNat v), r3)
      else
        (.error ⟨r2.state.pos, false, .Unicode⟩, r2)

/-- `string.rs::escape_char`: a backslash followed by one character from the
escape table, or `u` introducing a Unicode escape; any other next character
(or end of input) is a fatal `EscapeChar` error at the position after the
backslash. -/
def escape_char (r : Reader) : Except Error Char × Reader :=
  match try_literal "\\" r with
  | (.error e, r1) => (.error e, r1)
  | (.ok _, r1) =>
    let start := r1.state
    match r1.read with
    | (some '#', r2) => (.ok '#', r2)
    | (some '"', r2) => (.ok '"', r2)
    | (some '`', r2) => (.ok '`', r2)
    | (some '\\', r2) => (.ok '\\', r2)
    | (some '/', r2) => (.ok '/', r2)
    | (some 'b', r2) => (.ok '\x08', r2)
    | (some 'n', r2) => (.ok '\n', r2)
    | (some 'f', r2) => (.ok '\x0c', r2)
    | (some 'r', r2) => (.ok '\r', r2)
    | (some 't', r2) => (.ok '\t', r2)
    | (some 'u', r2) => unicode r2
    | (_, r2) => (.error ⟨start.pos, false, .EscapeChar⟩, r2)

/-- `string.rs::any_char`: one decoded character together with its raw encoded
text; an escape sequence, or a raw character that is neither in `except` nor a
backslash or bare control character. -/
def any_char (except : List Char) (r : Reader) : Except Error (Char × String) × Reader :=
  let start := r.state
  match escape_char r with
  | (.ok c, r1) => (.ok (c, r1.peek_back start.cursor), r1)
  | (.error e, r1) =>
    if e.recoverable then
      let r2 : Reader := ⟨r1.buffer, start⟩
      match r2.read with
      | (none, _) =>
        (.error ⟨start.pos, true, .Expecting "char"⟩, r2)
      | (some c, r3) =>
        if except.contains c || ['\\', '\x08', '\n', '\x0c', '\r', '\t'].contains c then
          (.error ⟨start.pos, true, .Expecting "char"⟩, r3)
        else
          (.ok (c, r3.peek_back start.cursor), r3)
    else
      (.error e, r1)

/-- Loop of `string.rs::unquoted_template`: accumulates non-space characters
into `chars`, buffers pending raw spaces in `spaces`, and tracks in `endSt`
the reader state just after the last retained character; `fuel` bounds the
iteration count (each iteration consumes at least one character). -/
def unquoted_template_loop : Nat → List EncodedChar → List EncodedChar →
    ReaderState → Reader → Except Error (List EncodedChar × ReaderState) × Reader
  | 0, chars, _, endSt, r => (.ok (chars, endSt), r)
  | fuel + 1, chars, spaces, endSt, r =>
    let pos := r.state.pos
    match any_char ['#'] r with
    | (.error e, r1) =>
      if e.recoverable then (.ok (chars, endSt), r1) else (.error e, r1)
    | (.ok (c, s), r1) =>
      if s = "\n" then (.ok (chars, endSt), r1)
      else if s = " " then
        unquoted_template_loop fuel chars (spaces ++ [(c, s, pos)]) endSt r1
      else
        unquoted_template_loop fuel (chars ++ spaces ++ [(c, s, pos)]) [] r1.state r1

/-- `string.rs::unquoted_template`: characters until end of input, end of line
or an unescaped `#`; pending unescaped trailing spaces are dropped and the
reader is reset to just after the last retained character before templating. -/
def unquoted_template (r : Reader) : Except Error Template × Reader :=
  let start := r.state
  match unquoted_template_loop (r.buffer.length + 1) [] [] start r with
  | (.error e, r1) => (.error e, r1)
  | (.ok (chars, endSt), r1) =>
    let r2 : Reader := ⟨r1.buffer, endSt⟩
    match templatize chars with
    | .error e => (.error e, r2)
    | .ok elements =>
      (.ok ⟨none, elements, ⟨start.pos, endSt.pos⟩⟩, r2)

/-- Whether a raw character may appear in an unquoted key
(`unquoted_string_key`'s accepted set); the source's Unicode
`char::is_alphanumeric` is approximated by ASCII alphanumerics, which covers
every input this development evaluates. -/
def isKeyChar (c : Char) : Bool :=
  c.isAlphanum || c = '_' || c = '-' || c = '.' || c = '[' || c = ']' ||
    c = '@' || c = '$'

/-- Loop of `string.rs::unquoted_string_key`: escape sequences or raw key
characters, accumulating decoded value and raw encoded text; on the first
non-key raw character the pre-iteration snapshot is restored and the loop
ends. `fuel` bounds the iteration count. -/
def unquoted_string_key_loop : Nat → String → String → Reader →
    Except Error (String × String) × Reader
  | 0, value, encoded, r => (.ok (value, encoded), r)
  | fuel + 1, value, encoded, r =>
    let save := r.state
    match escape_char r with
    | (.ok c, r1) =>
      unquoted_string_key_loop fuel (value.push c)
        (encoded ++ r1.peek_back save.cursor) r1
    | (.error e, r1) =>
      if e.recoverable then
        let r2 : Reader := ⟨r1.buffer, save⟩
        match r2.read with
        | (none, _) => (.ok (value, encoded), r2)
        | (some c, r3) =>
          if isKeyChar c then
            unquoted_string_key_loop fuel (value.push c)
              (encoded ++ r3.peek_back save.cursor) r3
          else
            (.ok (value, encoded), ⟨r3.buffer, save⟩)
      else
        (.error e, r1)

/-- `string.rs::unquoted_string_key`: a restricted identifier-like key token;
fails recoverably at its entry position if the decoded value is empty or the
encoded text starts with an unescaped `[`. -/
def unquoted_string_key (r : Reader) : Except Error EncodedString × Reader :=
  let start := r.state.pos
  match unquoted_string_key_loop (r.buffer.length + 1) "" "" r with
  | (.error e, r1) => (.error e, r1)
  | (.ok (value, encoded), r1) =>
    if value.isEmpty || strStartsWith encoded "[" then
      (.error ⟨start, true, .Expecting "key string"⟩, r1)
    else
      (.ok ⟨value, encoded, false, ⟨start, r1.state.pos⟩⟩, r1)

/-- Loop of `string.rs::quoted_template`: characters until an unescaped quote,
restoring the pre-iteration snapshot when the run ends; `fuel` bounds the
iteration count. -/
def quoted_template_loop : Nat → List EncodedChar → Pos → Reader →
    Except Error (List EncodedChar × Pos) × Reader
  | 0, chars, endPos, r => (.ok (chars, endPos), r)
  | fuel + 1, chars, endPos, r =>
    let pos := r.state.pos
    let save := r.state
    match any_char ['"'] r with
    | (.error e, r1) =>
      if e.recoverable then (.ok (chars, endPos), ⟨r1.buffer, save⟩)
      else (.error e, r1)
    | (.ok (c, s), r1) =>
      quoted_template_loop fuel (chars ++ [(c, s, pos)]) r1.state.pos r1

/-- `string.rs::quoted_template`: a double-quoted templated string; the
closing quote is mandatory (strict literal, fatal when missing). -/
def quoted_template (r : Reader) : Except Error Template × Reader :=
  let start := r.state.pos
  match try_literal "\"" r with
  | (.error e, r1) => (.error e, r1)
  | (.ok _, r1) =>
    match quoted_template_loop (r1.buffer.length + 1) [] start r1 with
    | (.error e, r2) => (.error e, r2)
    | (.ok (chars, _), r2) =>
      match literal "\"" r2 with
      | (.error e, r3) => (.error e, r3)
      | (.ok _, r3) =>
        match templatize chars with
        | .error e => (.error e, r3)
        | .ok elements =>
          (.ok ⟨some '"', elements, ⟨start, r3.state.pos⟩⟩, r3)

/-- The externally-produced tagged value variant consumed by the predicate
grammar (§3, `PredicateValue`); `Float` carries only its encoded text here,
since no claim depends on float arithmetic. -/
inductive PredicateValue where
  | Integer (value : Int)
  | Float (encoded : String)
  | Bool (value : Bool)
  | String (value : Template)
  | Hex (encoded : String)
  | Base64 (encoded : String)
  | Expression (e : Expr)
  | Regex (value : String)
  | Null
deriving DecidableEq, Repr

/-- `predicate.rs::PredicateValue::is_number`. -/
def PredicateValue.is_number (v : PredicateValue) :=
  match v with
  | .Integer _ => true
  | .Float _ => true
  | _ => false

/-- `predicate.rs::PredicateValue::is_string`. -/
def PredicateValue.is_string (v : PredicateValue) :=
  match v with
  | .String _ => true
  | _ => false

/-- `predicate.rs::PredicateValue::is_bytearray`. -/
def PredicateValue.is_bytearray (v : PredicateValue) :=
  match v with
  | .Hex _ => true
  | .Base64 _ => true
  | _ => false

/-- `predicate.rs::PredicateValue::is_expression`. -/
def PredicateValue.is_expression (v : PredicateValue) :=
  match v with
  | .Expression _ => true
  | _ => false

/-- Boolean literal alternative of the external value grammar. -/
def boolean_value (r : Reader) : Except Error PredicateValue × Reader :=
  match try_literal "true" r with
  | (.ok _, r1) => (.ok (.Bool true), r1)
  | (.error _, _) =>
    match try_literal "false" r with
    | (.ok _, r1) => (.ok (.Bool false), r1)
    | (.error _, _) => (.error ⟨r.state.pos, true, .Expecting "boolean"⟩, r)

/-- Quoted-string alternative of the external value grammar, delegating to
`quoted_template`. -/
def string_value (r : Reader) : Except Error PredicateValue × Reader :=
  match quoted_template r with
  | (.ok t, r1) => (.ok (.String t), r1)
  | (.error e, r1) => (.error e, r1)

/-- Integer literal alternative of the external value grammar. -/
def integer_value (r : Reader) : Except Error PredicateValue × Reader :=
  let cs := r.remaining.takeWhile Char.isDigit
  if cs.isEmpty then
    (.error ⟨r.state.pos, true, .Expecting "value"⟩, r)
  else
    (.ok (.Integer (Int.ofNat (digitsToNat cs))),
      ⟨r.buffer, r.state.advanceChars cs⟩)

/-- Modelled from the spec: the external value-literal grammar rule (§6),
whose source file (`predicate_value.rs`) is outside the provided sources.
Given the cursor positioned at a value it returns a `PredicateValue` or a
diagnostic, without knowing which predicate invoked it; the model is
restricted to the literal forms this development evaluates (booleans, quoted
strings, integers). -/
def predicate_value (r : Reader) : Except Error PredicateValue × Reader :=
  choice [boolean_value, string_value, integer_value] r

/-- `predicate.rs::predicate_not`: speculative `not` keyword followed by at
least one whitespace character; if `not` matches but no whitespace follows,
the entry snapshot is restored and `negated = false` is returned with an
empty whitespace span. This rule returns a plain pair: it can never fail. -/
def predicate_not (r : Reader) : (Bool × Whitespace) × Reader :=
  let save := r.state
  let no_whitespace : Whitespace := ⟨"", ⟨save.pos, save.pos⟩⟩
  match try_literal "not" r with
  | (.ok _, r1) =>
    match one_or_more_spaces r1 with
    | (.ok space, r2) => ((true, space), r2)
    | (.error _, r2) => ((false, no_whitespace), ⟨r2.buffer, save⟩)
  | (.error _, r1) => ((false, no_whitespace), r1)

/-- The 19 predicate-function kinds (§3, `PredicateFuncValue`); `operator` is
the source's `operator` field recording whether the symbolic spelling was
used. -/
inductive PredicateFuncValue where
  | Equal (space0 : Whitespace) (value : PredicateValue) (operator : Bool)
  | NotEqual (space0 : Whitespace) (value : PredicateValue) (operator : Bool)
  | GreaterThan (space0 : Whitespace) (value : PredicateValue) (operator : Bool)
  | GreaterThanOrEqual (space0 : Whitespace) (value : PredicateValue) (operator : Bool)
  | LessThan (space0 : Whitespace) (value : PredicateValue) (operator : Bool)
  | LessThanOrEqual (space0 : Whitespace) (value : PredicateValue) (operator : Bool)
  | StartWith (space0 : Whitespace) (value : PredicateValue)
  | EndWith (space0 : Whitespace) (value : PredicateValue)
  | Contain (space0 : Whitespace) (value : PredicateValue)
  | Include (space0 : Whitespace) (value : PredicateValue)
  | Match (space0 : Whitespace) (value : PredicateValue)
  | IsInteger
  | IsFloat
  | IsBoolean
  | IsString
  | IsCollection
  | IsDate
  | Exist
  | IsEmpty
deriving DecidableEq, Repr

/-- `predicate.rs::equal_predicate`: deprecated word form `equals` (≥1 space
before the value) or symbolic `==` (≥0 spaces); the deprecation notice is a
side channel (`eprintln!`) with no effect on the result, so it has no
counterpart here. -/
def equal_predicate (r : Reader) : Except Error PredicateFuncValue × Reader :=
  match try_literals "equals" "==" r with
  | (.error e, r1) => (.error e, r1)
  | (.ok matched, r1) =>
    let operator := matched = "=="
    match (if operator then zero_or_more_spaces r1 else one_or_more_spaces r1) with
    | (.error e, r2) => (.error e, r2)
    | (.ok space0, r2) =>
      match predicate_value r2 with
      | (.error e, r3) => (.error e, r3)
      | (.ok value, r3) => (.ok (.Equal space0 value operator), r3)

/-- `predicate.rs::not_equal_predicate`. -/
def not_equal_predicate (r : Reader) : Except Error PredicateFuncValue × Reader :=
  match try_literals "notEquals" "!=" r with
  | (.error e, r1) => (.error e, r1)
  | (.ok matched, r1) =>
    let operator := matched = "!="
    match (if operator then zero_or_more_spaces r1 else one_or_more_spaces r1) with
    | (.error e, r2) => (.error e, r2)
    | (.ok space0, r2) =>
      match predicate_value r2 with
      | (.error e, r3) => (.error e, r3)
      | (.ok value, r3) => (.ok (.NotEqual space0 value operator), r3)

/-- `predicate.rs::greater_predicate`: the value must be numeric, string or an
expression; otherwise a fatal `PredicateValue` error at the value's start. -/
def greater_predicate (r : Reader) : Except Error PredicateFuncValue × Reader :=
  match try_literals "greaterThan" ">" r with
  | (.error e, r1) => (.error e, r1)
  | (.ok matched, r1) =>
    let operator := matched = ">"
    match (if operator then zero_or_more_spaces r1 else one_or_more_spaces r1) with
    | (.error e, r2) => (.error e, r2)
    | (.ok space0, r2) =>
      let start := r2.state
      match predicate_value r2 with
      | (.error e, r3) => (.error e, r3)
      | (.ok value, r3) =>
        if value.is_number || value.is_string || value.is_expression then
          (.ok (.GreaterThan space0 value operator), r3)
        else
          (.error ⟨start.pos, false, .PredicateValue⟩, r3)

/-- `predicate.rs::greater_or_equal_predicate`. -/
def greater_or_equal_predicate (r : Reader) : Except Error PredicateFuncValue × Reader :=
  match try_literals "greaterThanOrEquals" ">=" r with
  | (.error e, r1) => (.error e, r1)
  | (.ok matched, r1) =>
    let operator := matched = ">="
    match (if operator then zero_or_more_spaces r1 else one_or_more_spaces r1) with
    | (.error e, r2) => (.error e, r2)
    | (.ok space0, r2) =>
      let start := r2.state
      match predicate_value r2 with
      | (.error e, r3) => (.error e, r3)
      | (.ok value, r3) =>
        if value.is_number || value.is_string || value.is_expression then
          (.ok (.GreaterThanOrEqual space0 value operator), r3)
        else
          (.error ⟨start.pos, false, .PredicateValue⟩, r3)

/-- `predicate.rs::less_predicate`. -/
def less_predicate (r : Reader) : Except Error PredicateFuncValue × Reader :=
  match try_literals "lessThan" "<" r with
  | (.error e, r1) => (.error e, r1)
  | (.ok matched, r1) =>
    let operator := matched = "<"
    match (if operator then zero_or_more_spaces r1 else one_or_more_spaces r1) with
    | (.error e, r2) => (.error e, r2)
    | (.ok space0, r2) =>
      let start := r2.state
      match predicate_value r2 with
      | (.error e, r3) => (.error e, r3)
      | (.ok value, r3) =>
        if value.is_number || value.is_string || value.is_expression then
          (.ok (.LessThan space0 value operator), r3)
        else
          (.error ⟨start.pos, false, .PredicateValue⟩, r3)

/-- `predicate.rs::less_or_equal_predicate`. -/
def less_or_equal_predicate (r : Reader) : Except Error PredicateFuncValue × Reader :=
  match try_literals "lessThanOrEquals" "<=" r with
  | (.error e, r1) => (.error e, r1)
  | (.ok matched, r1) =>
    let operator := matched = "<="
    match (if operator then zero_or_more_spaces r1 else one_or_more_spaces r1) with
    | (.error e, r2) => (.error e, r2)
    | (.ok space0, r2) =>
      let start := r2.state
      match predicate_value r2 with
      | (.error e, r3) => (.error e, r3)
      | (.ok value, r3) =>
        if value.is_number || value.is_string || value.is_expression then
          (.ok (.LessThanOrEqual space0 value operator), r3)
        else
          (.error ⟨start.pos, false, .PredicateValue⟩, r3)

/-- `predicate.rs::start_with_predicate`: the value must be a string or byte
array; otherwise a fatal `PredicateValue` error at the value's start. -/
def start_with_predicate (r : Reader) : Except Error PredicateFuncValue × Reader :=
  match try_literal "startsWith" r with
  | (.error e, r1) => (.error e, r1)
  | (.ok _, r1) =>
    match one_or_more_spaces r1 with
    | (.error e, r2) => (.error e, r2)
    | (.ok space0, r2) =>
      let save := r2.state
      match predicate_value r2 with
      | (.error e, r3) => (.error e, r3)
      | (.ok value, r3) =>
        if !value.is_string && !value.is_bytearray then
          (.error ⟨save.pos, false, .PredicateValue⟩, r3)
        else
          (.ok (.StartWith space0 value), r3)

/-- `predicate.rs::end_with_predicate`. -/
def end_with_predicate (r : Reader) : Except Error PredicateFuncValue × Reader :=
  match try_literal "endsWith" r with
  | (.error e, r1) => (.error e, r1)
  | (.ok _, r1) =>
    match one_or_more_spaces r1 with
    | (.error e, r2) => (.error e, r2)
    | (.ok space0, r2) =>
      let save := r2.state
      match predicate_value r2 with
      | (.error e, r3) => (.error e, r3)
      | (.ok value, r3) =>
        if !value.is_string && !value.is_bytearray then
          (.error ⟨save.pos, false, .PredicateValue⟩, r3)
        else
          (.ok (.EndWith space0 value), r3)

/-- `predicate.rs::contain_predicate`. -/
def contain_predicate (r : Reader) : Except Error PredicateFuncValue × Reader :=
  match try_literal "contains" r with
  | (.error e, r1) => (.error e, r1)
  | (.ok _, r1) =>
    match one_or_more_spaces r1 with
    | (.error e, r2) => (.error e, r2)
    | (.ok space0, r2) =>
      let save := r2.state
      match predicate_value r2 with
      | (.error e, r3) => (.error e, r3)
      | (.ok value, r3) =>
        if !value.is_string && !value.is_bytearray then
          (.error ⟨save.pos, false, .PredicateValue⟩, r3)
        else
          (.ok (.Contain space0 value), r3)

/-- `predicate.rs::include_predicate`: no value-type restriction. -/
def include_predicate (r : Reader) : Except Error PredicateFuncValue × Reader :=
  match try_literal "includes" r with
  | (.error e, r1) => (.error e, r1)
  | (.ok _, r1) =>
    match one_or_more_spaces r1 with
    | (.error e, r2) => (.error e, r2)
    | (.ok space0, r2) =>
      match predicate_value r2 with
      | (.error e, r3) => (.error e, r3)
      | (.ok value, r3) => (.ok (.Include space0 value), r3)

/-- `predicate.rs::match_predicate`: the value must be a string or regex;
otherwise a fatal `PredicateValue` error at the value's start. -/
def match_predicate (r : Reader) : Except Error PredicateFuncValue × Reader :=
  match try_literal "matches" r with
  | (.error e, r1) => (.error e, r1)
  | (.ok _, r1) =>
    match one_or_more_spaces r1 with
    | (.error e, r2) => (.error e, r2)
    | (.ok space0, r2) =>
      let save := r2.state
      match predicate_value r2 with
      | (.error e, r3) => (.error e, r3)
      | (.ok value, r3) =>
        if !(match value with
              | PredicateValue.String _ => true
              | _ => false) &&
           !(match value with
              | PredicateValue.Regex _ => true
              | _ => false) then
          (.error ⟨save.pos, false, .PredicateValue⟩, r3)
        else
          (.ok (.Match space0 value), r3)

/-- `predicate.rs::integer_predicate`. -/
def integer_predicate (r : Reader) : Except Error PredicateFuncValue × Reader :=
  match try_literal "isInteger" r with
  | (.error e, r1) => (.error e, r1)
  | (.ok _, r1) => (.ok .IsInteger, r1)

/-- `predicate.rs::float_predicate`. -/
def float_predicate (r : Reader) : Except Error PredicateFuncValue × Reader :=
  match try_literal "isFloat" r with
  | (.error e, r1) => (.error e, r1)
  | (.ok _, r1) => (.ok .IsFloat, r1)

/-- `predicate.rs::boolean_predicate`. -/
def boolean_predicate (r : Reader) : Except Error PredicateFuncValue × Reader :=
  match try_literal "isBoolean" r with
  | (.error e, r1) => (.error e, r1)
  | (.ok _, r1) => (.ok .IsBoolean, r1)

/-- `predicate.rs::string_predicate`. -/
def string_predicate (r : Reader) : Except Error PredicateFuncValue × Reader :=
  match try_literal "isString" r with
  | (.error e, r1) => (.error e, r1)
  | (.ok _, r1) => (.ok .IsString, r1)

/-- `predicate.rs::collection_predicate`. -/
def collection_predicate (r : Reader) : Except Error PredicateFuncValue × Reader :=
  match try_literal "isCollection" r with
  | (.error e, r1) => (.error e, r1)
  | (.ok _, r1) => (.ok .IsCollection, r1)

/-- `predicate.rs::date_predicate`. -/
def date_predicate (r : Reader) : Except Error PredicateFuncValue × Reader :=
  match try_literal "isDate" r with
  | (.error e, r1) => (.error e, r1)
  | (.ok _, r1) => (.ok .IsDate, r1)

/-- `predicate.rs::exist_predicate`. -/
def exist_predicate (r : Reader) : Except Error PredicateFuncValue × Reader :=
  match try_literal "exists" r with
  | (.error e, r1) => (.error e, r1)
  | (.ok _, r1) => (.ok .Exist, r1)

/-- `predicate.rs::is_empty_predicate`. -/
def is_empty_predicate (r : Reader) : Except Error PredicateFuncValue × Reader :=
  match try_literal "isEmpty" r with
  | (.error e, r1) => (.error e, r1)
  | (.ok _, r1) => (.ok .IsEmpty, r1)

/-- The ordered alternative table of `predicate.rs::predicate_func_value`,
exactly in the source's order. -/
def predicateAlternatives : List (ParserFn PredicateFuncValue) :=
  [equal_predicate,
   not_equal_predicate,
   greater_or_equal_predicate,
   greater_predicate,
   less_or_equal_predicate,
   less_predicate,
   start_with_predicate,
   end_with_predicate,
   contain_predicate,
   include_predicate,
   match_predicate,
   integer_predicate,
   float_predicate,
   boolean_predicate,
   string_predicate,
   collection_predicate,
   date_predicate,
   exist_predicate,
   is_empty_predicate]

/-- `predicate.rs::predicate_func_value`: ordered choice over the 19
alternatives; an aggregate recoverable failure becomes one fatal `Predicate`
error at the predicate's start, a fatal failure is propagated unchanged. -/
def predicate_func_value (r : Reader) : Except Error PredicateFuncValue × Reader :=
  let start := r.state
  match choice predicateAlternatives r with
  | (.error e, r1) =>
    if e.recoverable then
      (.error ⟨start.pos, false, .Predicate⟩, r1)
    else
      (.error e, r1)
  | (.ok v, r1) => (.ok v, r1)

/-- A parsed predicate function with its span (`ast::PredicateFunc`). -/
structure PredicateFunc where
  source_info : SourceInfo
  value : PredicateFuncValue
deriving DecidableEq, Repr

/-- `predicate.rs::predicate_func`. -/
def predicate_func (r : Reader) : Except Error PredicateFunc × Reader :=
  let start := r.state.pos
  match predicate_func_value r with
  | (.error e, r1) => (.error e, r1)
  | (.ok value, r1) => (.ok ⟨⟨start, r1.state.pos⟩, value⟩, r1)

/-- A full predicate with optional negation (`ast::Predicate`). -/
structure Predicate where
  not : Bool
  space0 : Whitespace
  predicate_func : PredicateFunc
deriving DecidableEq, Repr

/-- `predicate.rs::predicate`. -/
def predicate (r : Reader) : Except Error Predicate × Reader :=
  let ((not_, space0), r1) := predicate_not r
  match predicate_func r1 with
  | (.error e, r2) => (.error e, r2)
  | (.ok func, r2) => (.ok ⟨not_, space0, func⟩, r2)

/-- One TAP testcase (`tap::Testcase`). -/
structure Testcase where
  description : String
  success : Bool
deriving DecidableEq, Repr

/-- A report-writer error (`report::Error`). -/
structure ReportError where
  message : String
deriving DecidableEq, Repr

/-- Modelled from the spec: `Testcase::parse` is outside the provided sources
and the spec leaves report parsing out of scope; the model follows the
observable contract pinned by the source file's own test
(`test_parse_tap_report`): a trimmed line is a success iff it starts with
`ok`, and its description is the text after the first `-`, trimmed. -/
def Testcase.parse (line : String) : Except ReportError Testcase :=
  let success := strStartsWith line "ok"
  match splitOnList ['-'] line.data with
  | _ :: rest =>
    if rest.isEmpty then
      .error ⟨"Invalid TAP line <" ++ line ++ ">"⟩
    else
      .ok ⟨trimStr (String.mk (List.intercalate ['-'] rest)), success⟩
  | [] => .error ⟨"Invalid TAP line <" ++ line ++ ">"⟩

/-- The lines of a string, split on newlines with no trailing empty line, as
Rust's `str::lines` produces them for the inputs this development evaluates. -/
def strLines (s : String) : List String :=
  let ls := (splitOnList ['\n'] s.data).map String.mk
  match ls.getLast? with
  | some "" => ls.dropLast
  | _ => ls

/-- Parse the testcase lines after the header, skipping blank lines
(the loop of `report.rs::parse_tap_report`). -/
def parseTestcaseLines : List String → Except ReportError (List Testcase)
  | [] => .ok []
  | l :: ls =>
    let t := trimStr l
    if t.isEmpty then parseTestcaseLines ls
    else
      match Testcase.parse t with
      | .error e => .error e
      | .ok tc =>
        match parseTestcaseLines ls with
        | .error e => .error e
        | .ok tcs => .ok (tc :: tcs)

/-- `report.rs::parse_tap_report`: a `a..b` header line with two numeric
tokens, then one testcase per nonblank line. -/
def parse_tap_report (s : String) : Except ReportError (List Testcase) :=
  match strLines s with
  | [] => .ok []
  | header :: rest =>
    let header_tokens := (splitOnList ['.', '.'] header.data).map String.mk
    match header_tokens with
    | [] => .error ⟨"Invalid TAP Header <" ++ header ++ ">"⟩
    | t0 :: ts =>
      match strToNat? t0 with
      | none => .error ⟨"Invalid TAP Header <" ++ header ++ ">"⟩
      | some _ =>
        match ts.head? with
        | none => .error ⟨"Invalid TAP Header <" ++ header ++ ">"⟩
        | some t1 =>
          match strToNat? t1 with
          | none => .error ⟨"Invalid TAP Header <" ++ header ++ ">"⟩
          | some _ => parseTestcaseLines rest

/-- `report.rs::parse_tap_file`, with file input abstracted as the file's
content, `none` standing for a file that does not exist (which yields the
empty testcase list). -/
def parse_tap_file (content : Option String) : Except ReportError (List Testcase) :=
  match content with
  | none => .ok []
  | some s => parse_tap_report s

/-- The line-writing loop of `report.rs::write_tap_file`: one line per
testcase, numbered by the enumeration counter. -/
def tapLines : List Testcase → Nat → String
  | [], _ => ""
  | t :: ts, number =>
    (if t.success then "" else "not ") ++ "ok " ++ Nat.repr number ++ " - " ++
      t.description ++ "\n" ++ tapLines ts (number + 1)

/-- `report.rs::write_tap_file`, with file output abstracted as the written
content: a `1..<count>` header then one `ok`/`not ok` line per testcase. -/
def write_tap_file (testcases : List Testcase) : String :=
  "1.." ++ Nat.repr testcases.length ++ "\n" ++ tapLines testcases 1

/-- `report.rs::write_report`, with file input/output abstracted as content:
the existing file is parsed, the new testcases are appended to the existing
ones, and the whole list is rewritten. -/
def write_report (existing_content : Option String) (new_testcases : List Testcase) :
    Except ReportError String :=
  match parse_tap_file existing_content with
  | .error e => .error e
  | .ok existing => .ok (write_tap_file (existing ++ new_testcases))

/-- One report line as claim C10 words it: `ok <i> - <description>` for a
success, `not ok <i> - <description>` for a failure. -/
def tapLineSpec (i : Nat) (t : Testcase) : String :=
  (if t.success then "ok " else "not ok ") ++ Nat.repr i ++ " - " ++
    t.description ++ "\n"

/-- The report lines as claim C10 words them, numbered consecutively from
`i`. -/
def tapLinesSpec : Nat → List Testcase → String
  | _, [] => ""
  | i, t :: ts => tapLineSpec i t ++ tapLinesSpec (i + 1) ts

/-- Whether a character list starts with a hex digit. -/
def headIsHexDigit : List Char → Bool
  | c :: _ => (hexDigitVal c).isSome
  | [] => false

/-- Whether a character list starts with a space character. -/
def headIsSpace : List Char → Bool
  | c :: _ => isSpaceChar c
  | [] => false

/-- The mathematical value of a hex digit sequence interpreted base-16,
most-significant-digit-first. -/
def msbVal (ds : List Nat) : Nat :=
  ds.foldl (fun a d => 16 * a + d) 0

/-- The mathematical value of a hex digit sequence, least significant digit
first. -/
def lsbVal : List Nat → Nat
  | [] => 0
  | d :: ds => d + 16 * lsbVal ds

/-- Advancing over no characters leaves the state unchanged. -/
theorem advanceChars_nil (st : ReaderState) : st.advanceChars [] = st := by
  simp [ReaderState.advanceChars]

/-- Advancing over `c :: cs` advances over `c` and then over `cs`. -/
theorem advanceChars_cons (st : ReaderState) (c : Char) (cs : List Char) :
    st.advanceChars (c :: cs) =
      (ReaderState.mk (st.cursor + 1) (st.pos.advance c)).advanceChars cs := by
  simp [ReaderState.advanceChars, List.foldl]
  omega

/-- Advancing the state over `cs` drops `cs.length` characters from the
remaining input. -/
theorem remaining_mk_advance (r : Reader) (cs : List Char) :
    (Reader.mk r.buffer (r.state.advanceChars cs)).remaining =
      r.remaining.drop cs.length := by
  simp [Reader.remaining, ReaderState.advanceChars, List.drop_drop]

/-- A boolean consequence of a failed conjunction-of-negations test. -/
theorem bool_or_of_not_and (a b : Bool) (h : ¬(!a && !b) = true) :
    (a || b) = true := by
  cases a <;> cases b <;> simp_all

/-- C1, counterexample: on the input `[0]:` (the source's own
`test_unquoted_keys_ignore_start_square_bracket` input), `unquoted_string_key`
fails recoverably but leaves the cursor at offset 3, after the consumed
`[0]` — not at its entry offset 0 — refuting the claim that a recoverable
failure always returns with the cursor restored to the pre-attempt snapshot,
having consumed nothing. -/
theorem claim_C1_counterexample :
    unquoted_string_key (Reader.new "[0]:") =
      (.error ⟨⟨1, 1⟩, true, .Expecting "key string"⟩,
       ⟨"[0]:".data, ⟨3, ⟨1, 4⟩⟩⟩) ∧
    (Reader.new "[0]:").state.cursor = 0 ∧
    (3 : Nat) ≠ 0 :=
  ⟨rfl, rfl, by decide⟩

/-- C1, amended: `unquoted_string_key` fails recoverably on empty input and on
input beginning with an unescaped `[`, reporting the error at its entry
position; on empty input the cursor is unmoved (nothing was consumed), but in
the `[` case the consumed key characters stay consumed — the cursor is left
after them, not restored to the entry snapshot. -/
theorem claim_C1_amended :
    unquoted_string_key (Reader.new "") =
      (.error ⟨⟨1, 1⟩, true, .Expecting "key string"⟩, Reader.new "") ∧
    unquoted_string_key (Reader.new "[0]:") =
      (.error ⟨⟨1, 1⟩, true, .Expecting "key string"⟩,
       ⟨"[0]:".data, ⟨3, ⟨1, 4⟩⟩⟩) :=
  ⟨rfl, rfl⟩

/-- C2: the predicate-function ordered choice tries the 19 alternatives in the
source's precedence order, so `greaterThanOrEquals 5` parses as a
`GreaterThanOrEqual` predicate carrying the integer 5 with the whole input
consumed — never as `GreaterThan` with leftover `OrEquals 5`. -/
theorem claim_C2_precedence_order :
    predicate_func_value (Reader.new "greaterThanOrEquals 5") =
      (.ok (.GreaterThanOrEqual ⟨" ", ⟨⟨1, 20⟩, ⟨1, 21⟩⟩⟩
        (.Integer 5) false),
       ⟨"greaterThanOrEquals 5".data, ⟨21, ⟨1, 22⟩⟩⟩) :=
  rfl

/-- C5: in the unquoted template form, unescaped trailing spaces before an
unescaped `#` are trimmed from the literal and the cursor stops exactly at the
trimmed boundary: `hello world # comment` yields the single literal
`hello world` with the cursor at offset 11, column 12; escaped whitespace is
retained: in `hi\u 20  # c` (with `20` brace-escaped) the escaped space stays
in the literal and the cursor stops right after it, at column 9. -/
theorem claim_C5_trailing_space_trim :
    unquoted_template (Reader.new "hello world # comment") =
      (.ok ⟨none, [.String "hello world" "hello world"], ⟨⟨1, 1⟩, ⟨1, 12⟩⟩⟩,
       ⟨"hello world # comment".data, ⟨11, ⟨1, 12⟩⟩⟩) ∧
    unquoted_template (Reader.new "hi\\u{20} # c") =
      (.ok ⟨none, [.String "hi " "hi\\u{20}"], ⟨⟨1, 1⟩, ⟨1, 9⟩⟩⟩,
       ⟨"hi\\u{20} # c".data, ⟨8, ⟨1, 9⟩⟩⟩) :=
  ⟨rfl, rfl⟩

/-- C8, counterexample: `equals true` and `== true` do not differ only in the
`uses_symbolic_operator` flag: the two resulting `Equal` nodes also differ in
the recorded whitespace span before the value ((1,7)-(1,8) for the word form
versus (1,3)-(1,4) for the symbolic form). -/
theorem claim_C8_counterexample :
    equal_predicate (Reader.new "equals true") =
      (.ok (.Equal ⟨" ", ⟨⟨1, 7⟩, ⟨1, 8⟩⟩⟩ (.Bool true) false),
       ⟨"equals true".data, ⟨11, ⟨1, 12⟩⟩⟩) ∧
    equal_predicate (Reader.new "== true") =
      (.ok (.Equal ⟨" ", ⟨⟨1, 3⟩, ⟨1, 4⟩⟩⟩ (.Bool true) true),
       ⟨"== true".data, ⟨7, ⟨1, 8⟩⟩⟩) ∧
    (⟨" ", ⟨⟨1, 7⟩, ⟨1, 8⟩⟩⟩ : Whitespace) ≠ ⟨" ", ⟨⟨1, 3⟩, ⟨1, 4⟩⟩⟩ :=
  ⟨rfl, rfl, by decide⟩

/-- C8, amended: `equals true` (deprecated word form, requiring at least one
space before the value) and `== true` (symbolic form) both parse to an
`Equal` predicate function carrying the same parsed value `Bool true`, with
`uses_symbolic_operator` false for the word form and true for the symbolic
form (the nodes also record different whitespace spans); the symbolic form
permits zero spaces (`==true` parses) while the word form requires at least
one (`equalstrue` fails expecting a space); the deprecation notice for the word
form is an output side channel (`eprintln!`) that does not enter the parse
result or its recoverability. -/
theorem claim_C8_amended :
    equal_predicate (Reader.new "equals true") =
      (.ok (.Equal ⟨" ", ⟨⟨1, 7⟩, ⟨1, 8⟩⟩⟩ (.Bool true) false),
       ⟨"equals true".data, ⟨11, ⟨1, 12⟩⟩⟩) ∧
    equal_predicate (Reader.new "== true") =
      (.ok (.Equal ⟨" ", ⟨⟨1, 3⟩, ⟨1, 4⟩⟩⟩ (.Bool true) true),
       ⟨"== true".data, ⟨7, ⟨1, 8⟩⟩⟩) ∧
    equal_predicate (Reader.new "==true") =
      (.ok (.Equal ⟨"", ⟨⟨1, 3⟩, ⟨1, 3⟩⟩⟩ (.Bool true) true),
       ⟨"==true".data, ⟨6, ⟨1, 7⟩⟩⟩) ∧
    (∃ e r1, equal_predicate (Reader.new "equalstrue") = (.error e, r1) ∧
      e.inner = .Expecting "space") :=
  ⟨rfl, rfl, rfl, ⟨⟨⟨1, 7⟩, true, .Expecting "space"⟩,
    ⟨"equalstrue".data, ⟨6, ⟨1, 7⟩⟩⟩, rfl, rfl⟩⟩

/-- C4: the escape table decodes as specified for the ten single-character
escapes and for in-range brace-delimited hex escapes (`e9` gives é), an
unknown character after the backslash is a fatal `EscapeChar` error, and a
surrogate hex value is a fatal `Unicode` error — but on the failing input
`\u` of `100000043` the u32 accumulator of `hex_value` wraps modulo 2^32 to
0x43, so the escape decodes to `C` instead of the fatal `Unicode` error the
claim requires for a hex value that is not a valid Unicode scalar. -/
theorem claim_C4_escape_table :
    (escape_char (Reader.new "\\#")).1 = .ok '#' ∧
    (escape_char (Reader.new "\\\"")).1 = .ok '"' ∧
    (escape_char (Reader.new "\\`")).1 = .ok '`' ∧
    (escape_char (Reader.new "\\\\")).1 = .ok '\\' ∧
    (escape_char (Reader.new "\\/")).1 = .ok '/' ∧
    (escape_char (Reader.new "\\b")).1 = .ok '\x08' ∧
    (escape_char (Reader.new "\\n")).1 = .ok '\n' ∧
    (escape_char (Reader.new "\\f")).1 = .ok '\x0c' ∧
    (escape_char (Reader.new "\\r")).1 = .ok '\r' ∧
    (escape_char (Reader.new "\\t")).1 = .ok '\t' ∧
    (escape_char (Reader.new "\\u{a}")).1 = .ok '\n' ∧
    (escape_char (Reader.new "\\u{e9}")).1 = .ok 'é' ∧
    escape_char (Reader.new "\\z") =
      (.error ⟨⟨1, 2⟩, false, .EscapeChar⟩, ⟨"\\z".data, ⟨2, ⟨1, 3⟩⟩⟩) ∧
    escape_char (Reader.new "\\u{d800}") =
      (.error ⟨⟨1, 8⟩, false, .Unicode⟩, ⟨"\\u{d800}".data, ⟨7, ⟨1, 8⟩⟩⟩) ∧
    escape_char (Reader.new "\\u{100000043}") =
      (.ok 'C', ⟨"\\u{100000043}".data, ⟨13, ⟨1, 14⟩⟩⟩) ∧
    ¬ isValidScalar 4294967363 = true :=
  ⟨rfl, rfl, rfl, rfl, rfl, rfl, rfl, rfl, rfl, rfl, rfl, rfl, rfl, rfl, rfl,
   by decide⟩

/-- Every successful `start_with_predicate` parse carries a string or
byte-array value. -/
theorem start_with_predicate_ok_shape (r : Reader) (res : PredicateFuncValue)
    (r1 : Reader) (h : start_with_predicate r = (.ok res, r1)) :
    ∃ sp v, res = .StartWith sp v ∧ (v.is_string || v.is_bytearray) = true := by
  unfold start_with_predicate at h
  split at h
  · simp_all
  · split at h
    · simp_all
    · split at h
      · simp_all
      · split at h
        · simp_all
        · rename_i hcond
          simp only [Prod.mk.injEq, Except.ok.injEq] at h
          exact ⟨_, _, h.1.symm, bool_or_of_not_and _ _ hcond⟩

/-- Every successful `end_with_predicate` parse carries a string or byte-array
value. -/
theorem end_with_predicate_ok_shape (r : Reader) (res : PredicateFuncValue)
    (r1 : Reader) (h : end_with_predicate r = (.ok res, r1)) :
    ∃ sp v, res = .EndWith sp v ∧ (v.is_string || v.is_bytearray) = true := by
  unfold end_with_predicate at h
  split at h
  · simp_all
  · split at h
    · simp_all
    · split at h
      · simp_all
      · split at h
        · simp_all
        · rename_i hcond
          simp only [Prod.mk.injEq, Except.ok.injEq] at h
          exact ⟨_, _, h.1.symm, bool_or_of_not_and _ _ hcond⟩

/-- Every successful `contain_predicate` parse carries a string or byte-array
value. -/
theorem contain_predicate_ok_shape (r : Reader) (res : PredicateFuncValue)
    (r1 : Reader) (h : contain_predicate r = (.ok res, r1)) :
    ∃ sp v, res = .Contain sp v ∧ (v.is_string || v.is_bytearray) = true := by
  unfold contain_predicate at h
  split at h
  · simp_all
  · split at h
    · simp_all
    · split at h
      · simp_all
      · split at h
        · simp_all
        · rename_i hcond
          simp only [Prod.mk.injEq, Except.ok.injEq] at h
          exact ⟨_, _, h.1.symm, bool_or_of_not_and _ _ hcond⟩

/-- Every successful `match_predicate` parse carries a string or regex
value. -/
theorem match_predicate_ok_shape (r : Reader) (res : PredicateFuncValue)
    (r1 : Reader) (h : match_predicate r = (.ok res, r1)) :
    ∃ sp v, res = .Match sp v ∧
      ((match v with | PredicateValue.String _ => true | _ => false) ||
       (match v with | PredicateValue.Regex _ => true | _ => false)) = true := by
  unfold match_predicate at h
  split at h
  · simp_all
  · split at h
    · simp_all
    · split at h
      · simp_all
      · split at h
        · simp_all
        · rename_i hcond
          simp only [Prod.mk.injEq, Except.ok.injEq] at h
          exact ⟨_, _, h.1.symm, bool_or_of_not_and _ _ hcond⟩

/-- Every successful `greater_predicate` parse carries a numeric, string or
expression value. -/
theorem greater_predicate_ok_shape (r : Reader) (res : PredicateFuncValue)
    (r1 : Reader) (h : greater_predicate r = (.ok res, r1)) :
    ∃ sp v op, res = .GreaterThan sp v op ∧
      (v.is_number || v.is_string || v.is_expression) = true := by
  unfold greater_predicate at h
  split at h
  · simp_all
  · dsimp only at h
    split at h
    · simp_all
    · split at h
      · simp_all
      · split at h
        · rename_i hcond
          simp only [Prod.mk.injEq, Except.ok.injEq] at h
          exact ⟨_, _, _, h.1.symm, hcond⟩
        · simp_all

/-- Every successful `greater_or_equal_predicate` parse carries a numeric,
string or expression value. -/
theorem greater_or_equal_predicate_ok_shape (r : Reader)
    (res : PredicateFuncValue) (r1 : Reader)
    (h : greater_or_equal_predicate r = (.ok res, r1)) :
    ∃ sp v op, res = .GreaterThanOrEqual sp v op ∧
      (v.is_number || v.is_string || v.is_expression) = true := by
  unfold greater_or_equal_predicate at h
  split at h
  · simp_all
  · dsimp only at h
    split at h
    · simp_all
    · split at h
      · simp_all
      · split at h
        · rename_i hcond
          simp only [Prod.mk.injEq, Except.ok.injEq] at h
          exact ⟨_, _, _, h.1.symm, hcond⟩
        · simp_all

/-- Every successful `less_predicate` parse carries a numeric, string or
expression value. -/
theorem less_predicate_ok_shape (r : Reader) (res : PredicateFuncValue)
    (r1 : Reader) (h : less_predicate r = (.ok res, r1)) :
    ∃ sp v op, res = .LessThan sp v op ∧
      (v.is_number || v.is_string || v.is_expression) = true := by
  unfold less_predicate at h
  split at h
  · simp_all
  · dsimp only at h
    split at h
    · simp_all
    · split at h
      · simp_all
      · split at h
        · rename_i hcond
          simp only [Prod.mk.injEq, Except.ok.injEq] at h
          exact ⟨_, _, _, h.1.symm, hcond⟩
        · simp_all

/-- Every successful `less_or_equal_predicate` parse carries a numeric, string
or expression value. -/
theorem less_or_equal_predicate_ok_shape (r : Reader) (res : PredicateFuncValue)
    (r1 : Reader) (h : less_or_equal_predicate r = (.ok res, r1)) :
    ∃ sp v op, res = .LessThanOrEqual sp v op ∧
      (v.is_number || v.is_string || v.is_expression) = true := by
  unfold less_or_equal_predicate at h
  split at h
  · simp_all
  · dsimp only at h
    split at h
    · simp_all
    · split at h
      · simp_all
      · split at h
        · rename_i hcond
          simp only [Prod.mk.injEq, Except.ok.injEq] at h
          exact ⟨_, _, _, h.1.symm, hcond⟩
        · simp_all

/-- When the keyword and whitespace have been consumed and the value parses
but has a disallowed kind, `start_with_predicate` fails fatally with kind
`PredicateValue` at the reader position where the value started. -/
theorem start_with_predicate_value_pos (r r1 : Reader) (sp : Whitespace)
    (r2 : Reader) (v : PredicateValue) (r3 : Reader)
    (h1 : try_literal "startsWith" r = (.ok (), r1))
    (h2 : one_or_more_spaces r1 = (.ok sp, r2))
    (h3 : predicate_value r2 = (.ok v, r3))
    (hbad : (v.is_string || v.is_bytearray) = false) :
    start_with_predicate r =
      (.error ⟨r2.state.pos, false, .PredicateValue⟩, r3) := by
  unfold start_with_predicate
  rw [h1]
  dsimp only
  rw [h2]
  dsimp only
  rw [h3]
  dsimp only
  simp only [Bool.or_eq_false_iff] at hbad
  simp [hbad.1, hbad.2]

/-- C3: value-type validation happens right after the value is parsed and is
anchored at the value's own start: `startsWith 2` fails fatally with kind
`PredicateValue` at column 12, where the `2` starts; every successful
`startsWith`/`endsWith`/`contains` parse carries a string or byte-array
value; every successful `matches` parse carries a string or regex value;
every successful `greaterThan`/`greaterThanOrEquals`/`lessThan`/
`lessThanOrEquals` parse carries a numeric, string or expression value; and
whenever the keyword and whitespace are consumed and the parsed value has a
disallowed kind, the fatal `PredicateValue` error is positioned at the reader
state where the value began. -/
theorem claim_C3_value_type_validation :
    (start_with_predicate (Reader.new "startsWith 2") =
      (.error ⟨⟨1, 12⟩, false, .PredicateValue⟩,
       ⟨"startsWith 2".data, ⟨12, ⟨1, 13⟩⟩⟩)) ∧
    (∀ r res r1, start_with_predicate r = (.ok res, r1) →
      ∃ sp v, res = .StartWith sp v ∧ (v.is_string || v.is_bytearray) = true) ∧
    (∀ r res r1, end_with_predicate r = (.ok res, r1) →
      ∃ sp v, res = .EndWith sp v ∧ (v.is_string || v.is_bytearray) = true) ∧
    (∀ r res r1, contain_predicate r = (.ok res, r1) →
      ∃ sp v, res = .Contain sp v ∧ (v.is_string || v.is_bytearray) = true) ∧
    (∀ r res r1, match_predicate r = (.ok res, r1) →
      ∃ sp v, res = .Match sp v ∧
        ((match v with | PredicateValue.String _ => true | _ => false) ||
         (match v with | PredicateValue.Regex _ => true | _ => false)) = true) ∧
    (∀ r res r1, greater_predicate r = (.ok res, r1) →
      ∃ sp v op, res = .GreaterThan sp v op ∧
        (v.is_number || v.is_string || v.is_expression) = true) ∧
    (∀ r res r1, greater_or_equal_predicate r = (.ok res, r1) →
      ∃ sp v op, res = .GreaterThanOrEqual sp v op ∧
        (v.is_number || v.is_string || v.is_expression) = true) ∧
    (∀ r res r1, less_predicate r = (.ok res, r1) →
      ∃ sp v op, res = .LessThan sp v op ∧
        (v.is_number || v.is_string || v.is_expression) = true) ∧
    (∀ r res r1, less_or_equal_predicate r = (.ok res, r1) →
      ∃ sp v op, res = .LessThanOrEqual sp v op ∧
        (v.is_number || v.is_string || v.is_expression) = true) ∧
    (∀ r r1 sp r2 v r3,
      try_literal "startsWith" r = (.ok (), r1) →
      one_or_more_spaces r1 = (.ok sp, r2) →
      predicate_value r2 = (.ok v, r3) →
      (v.is_string || v.is_bytearray) = false →
      start_with_predicate r =
        (.error ⟨r2.state.pos, false, .PredicateValue⟩, r3)) :=
  ⟨rfl,
   start_with_predicate_ok_shape,
   end_with_predicate_ok_shape,
   contain_predicate_ok_shape,
   match_predicate_ok_shape,
   greater_predicate_ok_shape,
   greater_or_equal_predicate_ok_shape,
   less_predicate_ok_shape,
   less_or_equal_predicate_ok_shape,
   fun r r1 sp r2 v r3 h1 h2 h3 hbad =>
     start_with_predicate_value_pos r r1 sp r2 v r3 h1 h2 h3 hbad⟩

/-- C3, witness: the universally quantified parts of the claim theorem applied
at concrete inputs — a successful `startsWith "a"` parse (string value
accepted), a successful `greaterThan 5` parse (numeric value accepted), and
the `startsWith 2` pipeline whose integer value triggers the fatal
`PredicateValue` error at the value's start, column 12. -/
theorem claim_C3_witness :
    (∃ sp v,
      PredicateFuncValue.StartWith ⟨" ", ⟨⟨1, 11⟩, ⟨1, 12⟩⟩⟩
        (.String ⟨some '"', [.String "a" "a"], ⟨⟨1, 12⟩, ⟨1, 15⟩⟩⟩) =
          .StartWith sp v ∧
        (v.is_string || v.is_bytearray) = true) ∧
    (∃ sp v op,
      PredicateFuncValue.GreaterThan ⟨" ", ⟨⟨1, 12⟩, ⟨1, 13⟩⟩⟩
        (.Integer 5) false = .GreaterThan sp v op ∧
        (v.is_number || v.is_string || v.is_expression) = true) ∧
    start_with_predicate (Reader.new "startsWith 2") =
      (.error ⟨⟨1, 12⟩, false, .PredicateValue⟩,
       ⟨"startsWith 2".data, ⟨12, ⟨1, 13⟩⟩⟩) :=
  ⟨claim_C3_value_type_validation.2.1 (Reader.new "startsWith \"a\"") _
     ⟨"startsWith \"a\"".data, ⟨14, ⟨1, 15⟩⟩⟩ rfl,
   claim_C3_value_type_validation.2.2.2.2.2.1 (Reader.new "greaterThan 5") _
     ⟨"greaterThan 5".data, ⟨13, ⟨1, 14⟩⟩⟩ rfl,
   claim_C3_value_type_validation.2.2.2.2.2.2.2.2.2
     (Reader.new "startsWith 2")
     ⟨"startsWith 2".data, ⟨10, ⟨1, 11⟩⟩⟩
     ⟨" ", ⟨⟨1, 11⟩, ⟨1, 12⟩⟩⟩
     ⟨"startsWith 2".data, ⟨11, ⟨1, 12⟩⟩⟩
     (.Integer 2)
     ⟨"startsWith 2".data, ⟨12, ⟨1, 13⟩⟩⟩
     rfl rfl rfl rfl⟩

/-- C6: the predicate rule's `not` handling is a pure micro-backtrack — on any
input that starts with the literal `not` not followed by a space character,
`predicate_not` returns `negated = false` with an empty whitespace span
anchored at the entry position and the reader exactly as it was at entry
(`predicate_not` returns a plain pair, so it can never fail). -/
theorem claim_C6_not_micro_backtrack (r : Reader)
    (h1 : "not".data.isPrefixOf r.remaining = true)
    (h2 : headIsSpace (r.remaining.drop 3) = false) :
    predicate_not r = ((false, ⟨"", ⟨r.state.pos, r.state.pos⟩⟩), r) := by
  have hrem : (Reader.mk r.buffer (r.state.advanceChars "not".data)).remaining
      = r.remaining.drop 3 := remaining_mk_advance r "not".data
  have htw : (r.remaining.drop 3).takeWhile isSpaceChar = [] := by
    cases hd : r.remaining.drop 3 with
    | nil => simp
    | cons c t =>
      rw [hd] at h2
      simp only [headIsSpace] at h2
      simp [List.takeWhile, h2]
  simp only [predicate_not, try_literal, h1, if_true]
  simp only [one_or_more_spaces, hrem, htw]
  simp

/-- C6, witness: the claim theorem applied at the source's own test input
`notXX` — the literal `not` matches, no space follows, and the reader is left
exactly at its entry state with `negated = false`. -/
theorem claim_C6_witness :
    ("not".data.isPrefixOf (Reader.new "notXX").remaining = true) ∧
    (headIsSpace ((Reader.new "notXX").remaining.drop 3) = false) ∧
    predicate_not (Reader.new "notXX") =
      ((false, ⟨"", ⟨⟨1, 1⟩, ⟨1, 1⟩⟩⟩), Reader.new "notXX") :=
  ⟨by decide, by decide,
   claim_C6_not_micro_backtrack (Reader.new "notXX") (by decide) (by decide)⟩

/-- C7: whenever the ordered choice over the 19 predicate alternatives fails,
`predicate_func_value` converts a recoverable failure into exactly one fatal
`Predicate` diagnostic positioned at the reader state where the predicate
parse started, and propagates a fatal failure unchanged. -/
theorem claim_C7_aggregate_fatal (r : Reader) (e : Error) (r1 : Reader)
    (h : choice predicateAlternatives r = (.error e, r1)) :
    (e.recoverable = true →
      predicate_func_value r =
        (.error ⟨r.state.pos, false, .Predicate⟩, r1)) ∧
    (e.recoverable = false →
      predicate_func_value r = (.error e, r1)) := by
  unfold predicate_func_value
  rw [h]
  constructor
  · intro hrec; simp [hrec]
  · intro hrec; simp [hrec]

/-- C7, witness: on `tata equals 1` (the source's own `test_predicate_func`
input) every alternative fails recoverably — the choice ends with the last
alternative's recoverable `Expecting` error — and the claim theorem turns it
into the fatal `Predicate` diagnostic at line 1, column 1. -/
theorem claim_C7_witness :
    choice predicateAlternatives (Reader.new "tata equals 1") =
      (.error ⟨⟨1, 1⟩, true, .Expecting "isEmpty"⟩,
       Reader.new "tata equals 1") ∧
    predicate_func_value (Reader.new "tata equals 1") =
      (.error ⟨⟨1, 1⟩, false, .Predicate⟩, Reader.new "tata equals 1") :=
  ⟨rfl,
   (claim_C7_aggregate_fatal (Reader.new "tata equals 1")
     ⟨⟨1, 1⟩, true, .Expecting "isEmpty"⟩
     (Reader.new "tata equals 1") rfl).1 rfl⟩

/-- The accumulation loop of `hex_value` computes, modulo 2^32, the value of
its little-endian digit list. -/
theorem hexAccum_eq (ds : List Nat) : ∀ v w, v < U32M →
    hexAccum ds v w = (v + w * lsbVal ds) % U32M := by
  induction ds with
  | nil => intro v w hv; simp [hexAccum, lsbVal, Nat.mod_eq_of_lt hv]
  | cons d ds ih =>
    intro v w hv
    rw [hexAccum, ih _ _ (Nat.mod_lt _ (by norm_num [U32M]))]
    have h1 : (v + w * d % U32M) % U32M + w * 16 % U32M * lsbVal ds ≡
        (v + w * d) + w * 16 * lsbVal ds [MOD U32M] :=
      Nat.ModEq.add
        ((Nat.mod_modEq _ _).trans (Nat.ModEq.add_left v (Nat.mod_modEq _ _)))
        ((Nat.mod_modEq _ _).mul_right _)
    calc ((v + w * d % U32M) % U32M + w * 16 % U32M * lsbVal ds) % U32M
        = ((v + w * d) + w * 16 * lsbVal ds) % U32M := h1
      _ = (v + w * lsbVal (d :: ds)) % U32M := by rw [lsbVal]; ring_nf

/-- Folding the base-16 accumulator from `a` scales `a` by 16 to the digit
count. -/
theorem msbVal_foldl (ds : List Nat) : ∀ a,
    ds.foldl (fun x d => 16 * x + d) a = a * 16 ^ ds.length + msbVal ds := by
  induction ds with
  | nil => intro a; simp [msbVal]
  | cons d ds ih =>
    intro a
    simp only [List.foldl_cons, List.length_cons, msbVal]
    rw [ih (16 * a + d), ih (16 * 0 + d)]
    ring

/-- Unfolding `msbVal` at a leading digit. -/
theorem msbVal_cons (d : Nat) (ds : List Nat) :
    msbVal (d :: ds) = d * 16 ^ ds.length + msbVal ds := by
  simp only [msbVal, List.foldl_cons]
  rw [show 16 * 0 + d = d by ring]
  exact msbVal_foldl ds d

/-- `lsbVal` of a list with one digit appended. -/
theorem lsbVal_append (l : List Nat) (d : Nat) :
    lsbVal (l ++ [d]) = lsbVal l + d * 16 ^ l.length := by
  induction l with
  | nil => simp [lsbVal]
  | cons x l ih => simp [lsbVal, ih]; ring

/-- The little-endian value of the reversed digit list is the big-endian value
of the original. -/
theorem lsbVal_reverse (ds : List Nat) : lsbVal ds.reverse = msbVal ds := by
  induction ds with
  | nil => simp [lsbVal, msbVal]
  | cons d ds ih =>
    rw [List.reverse_cons, lsbVal_append, ih, msbVal_cons, List.length_reverse]
    ring

/-- The base-16 value of a digit list is below 16 to the digit count. -/
theorem msbVal_lt (ds : List Nat) (h : ∀ d ∈ ds, d < 16) :
    msbVal ds < 16 ^ ds.length := by
  induction ds with
  | nil => simp [msbVal]
  | cons d ds ih =>
    rw [msbVal_cons]
    have hd : d + 1 ≤ 16 := h d (by simp)
    have hm := ih (fun x hx => h x (by simp [hx]))
    calc d * 16 ^ ds.length + msbVal ds
        < d * 16 ^ ds.length + 16 ^ ds.length := by omega
      _ = (d + 1) * 16 ^ ds.length := by ring
      _ ≤ 16 * 16 ^ ds.length := Nat.mul_le_mul_right _ hd
      _ = 16 ^ (d :: ds).length := by rw [List.length_cons]; ring

/-- `hex_value`'s accumulator applied to the reversed digits equals the
big-endian mathematical value reduced modulo 2^32. -/
theorem hexAccum_rev_msb (ds : List Nat) :
    hexAccum ds.reverse 0 1 = msbVal ds % U32M := by
  rw [hexAccum_eq _ 0 1 (by norm_num [U32M]), lsbVal_reverse]
  simp

/-- Hex digit values are below 16. -/
theorem hexDigitVal_getD_lt (c : Char) : (hexDigitVal c).getD 0 < 16 := by
  simp only [hexDigitVal]
  split
  · rename_i h; simp only [Option.getD_some]; omega
  · split
    · rename_i h; simp only [Option.getD_some]; omega
    · split
      · rename_i h; simp only [Option.getD_some]; omega
      · simp

/-- `hex_digit` on input starting with a hex digit consumes it and returns its
value. -/
theorem hex_digit_ok (r : Reader) (c : Char) (t : List Char) (v : Nat)
    (hrem : r.remaining = c :: t) (hv : hexDigitVal c = some v) :
    hex_digit r = (.ok v, ⟨r.buffer, r.state.advanceChars [c]⟩) := by
  unfold hex_digit Reader.read
  rw [hrem]
  simp [hv, ReaderState.advanceChars]

/-- `hex_digit` on input not starting with a hex digit fails recoverably with
kind `HexDigit`, leaving the reader untouched. -/
theorem hex_digit_fail (r : Reader) (hrem : headIsHexDigit r.remaining = false) :
    hex_digit r = (.error ⟨r.state.pos, true, .HexDigit⟩, r) := by
  unfold hex_digit Reader.read
  cases hc : r.remaining with
  | nil => simp
  | cons c t =>
    rw [hc] at hrem
    simp only [headIsHexDigit, Option.isSome] at hrem
    cases hv : hexDigitVal c with
    | some v => rw [hv] at hrem; simp at hrem
    | none => simp [hv]

/-- The repetition loop collects exactly the maximal leading run of hex
digits. -/
theorem one_or_more_go_hex (cs : List Char) : ∀ (fuel : Nat) (acc : List Nat)
    (r : Reader) (rest : List Char),
    r.remaining = cs ++ rest →
    (∀ c ∈ cs, (hexDigitVal c).isSome = true) →
    headIsHexDigit rest = false →
    cs.length ≤ fuel →
    one_or_more_go hex_digit fuel acc r =
      (.ok (acc ++ cs.map fun c => (hexDigitVal c).getD 0),
       ⟨r.buffer, r.state.advanceChars cs⟩) := by
  induction cs with
  | nil =>
    intro fuel acc r rest hrem hall hhead hfuel
    simp only [List.nil_append] at hrem
    cases fuel with
    | zero => simp [one_or_more_go, advanceChars_nil]
    | succ fuel =>
      rw [one_or_more_go, hex_digit_fail r (by rw [hrem]; exact hhead)]
      simp [advanceChars_nil]
  | cons c cs ih =>
    intro fuel acc r rest hrem hall hhead hfuel
    have hc : (hexDigitVal c).isSome = true := hall c (by simp)
    obtain ⟨v, hv⟩ := Option.isSome_iff_exists.mp hc
    cases fuel with
    | zero => simp at hfuel
    | succ fuel =>
      rw [one_or_more_go, hex_digit_ok r c (cs ++ rest) v (by simpa using hrem) hv]
      dsimp only
      have hrem2 : (Reader.mk r.buffer (r.state.advanceChars [c])).remaining =
          cs ++ rest := by
        rw [remaining_mk_advance, hrem]
        simp
      rw [ih fuel (acc ++ [v]) _ rest hrem2
        (fun x hx => hall x (by simp [hx])) hhead (by simpa using hfuel)]
      simp [advanceChars_cons, ReaderState.advanceChars, hv]
      omega

/-- `one_or_more hex_digit` on input starting with a nonempty maximal hex
digit run returns the run's digit values and advances over the run. -/
theorem one_or_more_hex (cs : List Char) (fuel : Nat) (r : Reader)
    (rest : List Char)
    (hne : cs ≠ [])
    (hrem : r.remaining = cs ++ rest)
    (hall : ∀ c ∈ cs, (hexDigitVal c).isSome = true)
    (hhead : headIsHexDigit rest = false)
    (hfuel : cs.length ≤ fuel + 1) :
    one_or_more hex_digit fuel r =
      (.ok (cs.map fun c => (hexDigitVal c).getD 0),
       ⟨r.buffer, r.state.advanceChars cs⟩) := by
  cases cs with
  | nil => exact absurd rfl hne
  | cons c cs =>
    have hc : (hexDigitVal c).isSome = true := hall c (by simp)
    obtain ⟨v, hv⟩ := Option.isSome_iff_exists.mp hc
    rw [one_or_more, hex_digit_ok r c (cs ++ rest) v (by simpa using hrem) hv]
    dsimp only
    have hrem2 : (Reader.mk r.buffer (r.state.advanceChars [c])).remaining =
        cs ++ rest := by
      rw [remaining_mk_advance, hrem]; simp
    rw [one_or_more_go_hex cs fuel [v] _ rest hrem2
      (fun x hx => hall x (by simp [hx])) hhead (by simp at hfuel; omega)]
    simp [advanceChars_cons, ReaderState.advanceChars, hv]
    omega

/-- C9: on any input beginning with a nonempty maximal run of hex digits,
`hex_value` consumes the run and returns the digits' base-16
most-significant-first value reduced modulo 2^32 (the unguarded u32
accumulation wraps); for runs of at most 8 digits the reduction is the
identity, so the result is exactly the mathematical value, while longer runs
wrap (e.g. the 9-digit run `100000043` yields 0x43, see the witness). -/
theorem claim_C9_hex_value_wraps (cs rest : List Char) (r : Reader)
    (hne : cs ≠ [])
    (hrem : r.remaining = cs ++ rest)
    (hall : ∀ c ∈ cs, (hexDigitVal c).isSome = true)
    (hhead : headIsHexDigit rest = false) :
    hex_value r =
      (.ok (msbVal (cs.map fun c => (hexDigitVal c).getD 0) % U32M),
       ⟨r.buffer, r.state.advanceChars cs⟩) ∧
    (cs.length ≤ 8 →
      msbVal (cs.map fun c => (hexDigitVal c).getD 0) % U32M =
        msbVal (cs.map fun c => (hexDigitVal c).getD 0)) := by
  constructor
  · have hlen : cs.length ≤ r.buffer.length + 1 + 1 := by
      have := congrArg List.length hrem
      simp only [Reader.remaining, List.length_drop, List.length_append] at this
      omega
    unfold hex_value
    rw [one_or_more_hex cs (r.buffer.length + 1) r rest hne hrem hall hhead hlen]
    dsimp only
    rw [hexAccum_rev_msb]
  · intro h8
    apply Nat.mod_eq_of_lt
    calc msbVal (cs.map fun c => (hexDigitVal c).getD 0)
        < 16 ^ (cs.map fun c => (hexDigitVal c).getD 0).length := by
          apply msbVal_lt
          intro d hd
          obtain ⟨c, -, rfl⟩ := List.mem_map.mp hd
          exact hexDigitVal_getD_lt c
      _ ≤ 16 ^ 8 := by
          apply Nat.pow_le_pow_right (by norm_num)
          simpa using h8
      _ ≤ U32M := by norm_num [U32M]

/-- C9, witness: the claim theorem applied at the 9-digit run `100000043`,
whose mathematical value 0x100000043 wraps modulo 2^32 to 67 (0x43), and at
the 2-digit run `ff`, where the modulo-2^32 reduction is the identity. -/
theorem claim_C9_witness :
    hex_value (Reader.new "100000043") =
      (.ok 67, ⟨"100000043".data, ⟨9, ⟨1, 10⟩⟩⟩) ∧
    msbVal ("ff".data.map fun c => (hexDigitVal c).getD 0) % U32M =
      msbVal ("ff".data.map fun c => (hexDigitVal c).getD 0) := by
  constructor
  · exact (claim_C9_hex_value_wraps "100000043".data [] (Reader.new "100000043")
      (by decide) (by simp [Reader.new, Reader.remaining]) (by decide)
      (by decide)).1
  · exact (claim_C9_hex_value_wraps "ff".data [] (Reader.new "ff")
      (by decide) (by simp [Reader.new, Reader.remaining]) (by decide)
      (by decide)).2 (by decide)

/-- The source's enumeration loop writes the same lines as the claim's
per-line format, for any starting number. -/
theorem tapLines_eq_spec (l : List Testcase) : ∀ i, tapLines l i = tapLinesSpec i l := by
  induction l with
  | nil => intro i; rfl
  | cons t ts ih =>
    intro i
    rw [tapLines, tapLinesSpec, ih, tapLineSpec]
    cases hs : t.success
    · simp only [hs, Bool.false_eq_true, if_false]
      rw [show ("not " ++ "ok " : String) = "not ok " from rfl]
    · simp only [hs, if_true]
      rw [show ("" ++ "ok " : String) = "ok " from rfl]

/-- C10: `write_report` appends logically — a missing file parses to the empty
testcase list, and whenever the existing content parses to a list `E`, the
content written for new testcases `N` is a `1..n` header with
`n = length E + length N` followed by one line per testcase, the testcases of
`E` first in their original order and then those of `N` in argument order,
each line `ok <i> - <description>` or `not ok <i> - <description>` with `i`
numbered consecutively from 1. -/
theorem claim_C10_write_report_appends :
    parse_tap_file none = .ok [] ∧
    ∀ content E N, parse_tap_file content = .ok E →
      write_report content N =
        .ok ("1.." ++ Nat.repr (E.length + N.length) ++ "\n" ++
          tapLinesSpec 1 (E ++ N)) := by
  constructor
  · rfl
  · intro content E N h
    unfold write_report
    rw [h]
    dsimp only
    rw [write_tap_file, tapLines_eq_spec]
    simp [List.length_append]

/-- C10, witness: the claim theorem applied at an existing one-testcase file
and one new failing testcase: the written content is `1..2` followed by the
old line renumbered 1 and the new `not ok 2` line. -/
theorem claim_C10_witness :
    parse_tap_file (some "1..1\nok 1 - a\n") = .ok [⟨"a", true⟩] ∧
    write_report (some "1..1\nok 1 - a\n") [⟨"b", false⟩] =
      .ok ("1.." ++ Nat.repr 2 ++ "\n" ++
        tapLinesSpec 1 ([⟨"a", true⟩] ++ [⟨"b", false⟩])) :=
  ⟨rfl,
   claim_C10_write_report_appends.2 (some "1..1\nok 1 - a\n")
     [⟨"a", true⟩] [⟨"b", false⟩] rfl⟩

end Hurl
